import Mathlib

set_option maxHeartbeats 1600000

/-
Verification of the embedded Nostr relay (src/zap/README.md, the TypeScript
`NostrRelay` / `ClientSession` implementation) against its natural-language
specification.  The relay's pure functions (`match_filter`, `match_tags`,
`verify_event`) and its stateful handlers (`_onevent`, `_onreq`, `_onclose`,
`_handler`, `addSub`, `remSub`, `store`) are shallowly embedded below.

Modelling conventions:
* JS strings are Lean `String`; JS numbers that the relay manipulates are
  `Int` (all values involved are integers); JS arrays are Lean `List`.
* A JS `Map` (insertion-ordered, unique keys) is an association list
  `List (String × α)` with `mapSet` / `mapDelete` / `mapGet` mirroring
  `Map.set` / `Map.delete` / `Map.get` (set on an existing key replaces the
  value in place, otherwise appends).
* `key.startsWith('#')` (a single-character prefix test) is modelled as
  `key.data.head? == some '#'`; `key.slice(1, 2)` as `(key.drop 1).take 1`.
* The sha256 hash and schnorr signature check used by `verify_event` are
  calls into external libraries (`@noble/hashes`, `@noble/curves`), not code
  of this repository; they are passed in as oracle parameters.
* Sends to a websocket are recorded as explicit actions `Act.send sid frame`
  addressed to a session id; sessions are identified by their `sid` string
  (the code stores a `ClientSession` object reference, written `instance`;
  it is modelled by the field `owner` holding that session's sid).
* `NostrRelay.store` runs `cache.concat(event).sort((a, b) => a > b ? -1 : 1)`.
  The comparator applies the JS `>` operator to two event objects; both
  coerce to the string "[object Object]", so `a > b` is always `false` and
  the comparator is constantly `1`.  The result of sorting under such a
  comparator is implementation-defined; the specification itself flags the
  resulting order as an open question.  No claim below depends on the order
  produced by the sort, only on membership and on "store order" meaning the
  order of the cache list, so the sort is modelled as the identity
  permutation, i.e. `store` appends.
-/

namespace NostrEmbed

/-! ## Data model (interfaces `SignedEvent`, `EventFilter`, `Subscription`) -/

/-- interface SignedEvent (src/zap/README.md): content, created_at, id, kind,
pubkey, sig, tags. -/
structure SignedEvent where
  content : String
  created_at : Int
  id : String
  kind : Int
  pubkey : String
  sig : String
  tags : List (List String)
deriving Repr, DecidableEq

/-- interface EventFilter: the six named optional fields plus the index
signature `[key: string]: any` holding the remaining (tag-filter) keys,
kept in object-insertion order in `rest`.  Keys in `rest` are by
construction distinct from the six named fields (a JS object has one slot
per key). -/
structure EventFilter where
  ids : Option (List String) := none
  authors : Option (List String) := none
  kinds : Option (List Int) := none
  since : Option Int := none
  /-- the source field is named `until`, a keyword in Lean -/
  until_ : Option Int := none
  limit : Option Int := none
  rest : List (String × List String) := []
deriving Repr, DecidableEq

/-- interface Subscription: filters, instance (the owning ClientSession,
modelled by its sid in `owner`), sub_id. -/
structure Subscription where
  filters : List EventFilter
  owner : String
  sub_id : String
deriving Repr, DecidableEq

/-- The relay's shared mutable state: `_cache` (the event store) and
`_subs` (the subscription registry, a JS Map). -/
structure RelayState where
  cache : List SignedEvent
  subs : List (String × Subscription)
deriving Repr, DecidableEq

/-! ## JS Map operations -/

/-- `Map.has k`. -/
def mapHasKey : List (String × α) → String → Bool
  | [], _ => false
  | p :: rest, k => p.1 == k || mapHasKey rest k

/-- Replace the value stored under `k` in place (JS `Map.set` keeps the
entry's position when the key is already present). -/
def mapOverwrite (k : String) (v : α) : List (String × α) → List (String × α)
  | [] => []
  | p :: rest => (if p.1 == k then (k, v) else p) :: mapOverwrite k v rest

/-- `Map.set k v`: replace in place if the key is present, else append. -/
def mapSet (m : List (String × α)) (k : String) (v : α) : List (String × α) :=
  if mapHasKey m k then mapOverwrite k v m else m ++ [(k, v)]

/-- `Map.delete k`. -/
def mapDelete : List (String × α) → String → List (String × α)
  | [], _ => []
  | p :: rest, k => if p.1 == k then mapDelete rest k else p :: mapDelete rest k

/-- `Map.get k`: the (first) entry stored under `k`. -/
def mapGet : List (String × α) → String → Option α
  | [], _ => none
  | p :: rest, k => if p.1 == k then some p.2 else mapGet rest k

/-! ## Filter matching (`match_filter`, `match_tags`) -/

/-- JS `key.startsWith('#')`: the prefix is a single character, so this is
exactly "the first character is '#'". -/
def startsWithHash (k : String) : Bool :=
  k.data.head? == some '#'

/-- The `tag_filters` computation in `match_filter`:
`Object.entries(rest).filter(e => e[0].startsWith('#')).map(e => [e[0].slice(1, 2), ...e[1]])`.
`slice(1, 2)` keeps only the first character after the `#`. -/
def tag_filters (f : EventFilter) : List (List String) :=
  (f.rest.filter (fun kv => startsWithHash kv.1)).map
    (fun kv => ((kv.1.drop 1).take 1) :: kv.2)

/-- `match_tags(filters, tags)`: for each entry `[key, ...terms]` of
`filters`, an empty `terms` is vacuously satisfied (`continue` with
`filterMatched = true`); otherwise some tag `[tag, ...params]` with
`tag === key` must have some `term` of `terms` in `params` (the imperative
`filterMatched` / `break` pattern is the existential `any`, the early
`return false` makes the outer loop the universal `all`).  A tag that is an
empty array destructures to `tag = undefined`, which is `!==` every string
key, hence the `false` arm. -/
def match_tags (filters : List (List String)) (tags : List (List String)) : Bool :=
  filters.all (fun tf =>
    match tf with
    | [] => true
    | key :: terms =>
      terms.isEmpty ||
      tags.any (fun tg =>
        match tg with
        | [] => false
        | tagName :: params => tagName == key && terms.any (fun term => params.contains term)))

/-- `match_filter(event, filter)`: the destructured chain of early
`return false` clauses over `ids`, `since`, `until`, `authors`, `kinds`,
falling through to `match_tags` when any tag-filters are present. -/
def match_filter (event : SignedEvent) (filter : EventFilter) : Bool :=
  if filter.ids.any (fun ids => !(ids.contains event.id)) then false
  else if filter.since.any (fun s => decide (event.created_at < s)) then false
  else if filter.until_.any (fun u => decide (event.created_at > u)) then false
  else if filter.authors.any (fun a => !(a.contains event.pubkey)) then false
  else if filter.kinds.any (fun k => !(k.contains event.kind)) then false
  else if 0 < (tag_filters filter).length then match_tags (tag_filters filter) event.tags
  else true

/-- The empty filter literal. -/
def emptyFilter : EventFilter := {}

/-- Claim-side matcher (C1), following the specification's words, for
comparison with the source-derived `match_filter`: every clause present
must hold; a tag-filter key (a `rest` key whose first character is `#`,
naming the tag `k.drop 1`) requires some tag of the event whose name is
that tag name to have some parameter among the key's terms, an empty term
list being vacuously satisfied. -/
def matches_spec (e : SignedEvent) (f : EventFilter) : Prop :=
  (∀ l, f.ids = some l → e.id ∈ l) ∧
  (∀ sn, f.since = some sn → sn ≤ e.created_at) ∧
  (∀ ut, f.until_ = some ut → e.created_at ≤ ut) ∧
  (∀ l, f.authors = some l → e.pubkey ∈ l) ∧
  (∀ l, f.kinds = some l → e.kind ∈ l) ∧
  (∀ k ts, (k, ts) ∈ f.rest → startsWithHash k = true →
    ts = [] ∨ ∃ tg ∈ e.tags, tg.head? = some (k.drop 1) ∧ ∃ t ∈ ts, t ∈ tg.tail)

/-! ## Event store (`NostrRelay.store`) -/

/-- `store(event)`: `_cache = _cache.concat(event).sort(cmp)` with the
constant comparator discussed in the header; modelled as an append (the
identity permutation of the concatenation). -/
def store (cache : List SignedEvent) (e : SignedEvent) : List SignedEvent :=
  cache ++ [e]

/-! ## Event validation (`verify_event`) -/

/-- JSON string escaping as performed by `JSON.stringify` on a character
(quote, backslash, and control characters; lone-surrogate escaping is out
of scope for the inputs considered here). -/
def jsonEscapeChar (c : Char) : String :=
  if c = '"' then "\\\""
  else if c = '\\' then "\\\\"
  else if c = '\n' then "\\n"
  else if c = '\r' then "\\r"
  else if c = '\t' then "\\t"
  else if c = '\x08' then "\\b"
  else if c = '\x0c' then "\\f"
  else if c.toNat < 32 then
    let hexDigit (n : Nat) : String :=
      String.singleton (if n < 10 then Char.ofNat (48 + n) else Char.ofNat (87 + n))
    "\\u00" ++ hexDigit (c.toNat / 16) ++ hexDigit (c.toNat % 16)
  else String.singleton c

/-- `JSON.stringify` of a string. -/
def jsonStr (s : String) : String :=
  "\"" ++ String.join (s.data.map jsonEscapeChar) ++ "\""

/-- `JSON.stringify` of a string array. -/
def jsonStrArr (l : List String) : String :=
  "[" ++ String.intercalate "," (l.map jsonStr) ++ "]"

/-- `JSON.stringify` of the tags (an array of string arrays). -/
def jsonTags (tags : List (List String)) : String :=
  "[" ++ String.intercalate "," (tags.map jsonStrArr) ++ "]"

/-- The preimage string built by `verify_event`:
`JSON.stringify([0, pubkey, created_at, kind, tags, content])`. -/
def serialize_event (e : SignedEvent) : String :=
  "[0," ++ jsonStr e.pubkey ++ "," ++ toString e.created_at ++ "," ++
    toString e.kind ++ "," ++ jsonTags e.tags ++ "," ++ jsonStr e.content ++ "]"

/-- `verify_event(event)`: recompute the sha256 of the serialized preimage,
compare (as a lowercase-hex string) with `event.id`, then check the schnorr
signature of `id` under `pubkey`.  The two cryptographic primitives are
external-library calls, passed in as oracles `sha256hex` and
`schnorrVerify` (arguments in source order: sig, msg, pubkey).  Note the
function performs no check on `created_at` and never consults
`event_schema`. -/
def verify_event (sha256hex : String → String)
    (schnorrVerify : String → String → String → Bool) (e : SignedEvent) : Bool :=
  let pimg := serialize_event e
  let dig := sha256hex pimg
  if dig != e.id then false else schnorrVerify e.sig e.id e.pubkey

/-! ## Outbound frames and actions -/

/-- The JSON array frames the session writes with `send(...)`, by shape:
`['OK', id, bool, msg]`, `['EVENT', subId, event]`, `['EOSE', subId]`,
`['NOTICE', msg]` (arity 2), `['NOTICE', '', msg]` (arity 3), and the raw
re-sent inbound text of the tunnel rebroadcast branch. -/
inductive Frame where
  | ok (eventId : String) (success : Bool) (message : String)
  | event (subId : String) (e : SignedEvent)
  | eose (subId : String)
  | notice2 (message : String)
  | notice3 (blank message : String)
  | raw (text : String)
deriving Repr, DecidableEq

/-- Observable actions of a handler step.  `closeConn` is in the alphabet
because `socket.close()` exists in the code, but only `_cleanup` (connection
teardown) ever performs it — no frame handler does, which the theorems below
make explicit. -/
inductive Act where
  | send (dest : String) (frame : Frame)
  | closeConn (sid : String)
deriving Repr, DecidableEq

/-! ## Session handlers (`ClientSession`) -/

/-- `addSub(sub_id, ...filters)`: register under the composite key
`sid + '/' + sub_id`.  (The session's private `_subs : Set<string>`, used
only by `_cleanup` on disconnect, is not modelled; no claim concerns it.) -/
def subKey (sid sub_id : String) : String :=
  sid ++ "/" ++ sub_id

def addSub (self : String) (s : RelayState) (sub_id : String)
    (filters : List EventFilter) : RelayState :=
  { s with subs := mapSet s.subs (subKey self sub_id) ⟨filters, self, sub_id⟩ }

/-- `remSub(subId)`. -/
def remSub (self : String) (s : RelayState) (sub_id : String) : RelayState :=
  { s with subs := mapDelete s.subs (subKey self sub_id) }

/-- `_onclose(sub_id)`: just `remSub`. -/
def onclose (self : String) (s : RelayState) (sub_id : String) : RelayState :=
  remSub self s sub_id

/-- The per-filter test of the kind-24133 branch of `_onevent`:
`filter.kinds?.includes(24133)` and, when the filter carries `#p` terms
(`pFilters`), at least one `p`-tag value of the event (`pTags`, the second
element of each tag whose first element is `'p'`; possibly `undefined`,
modelled as `Option`) is among them. -/
def tunnelFilterOk (e : SignedEvent) (f : EventFilter) : Bool :=
  (f.kinds.any (fun ks => ks.contains 24133)) &&
  (let pFilters := ((f.rest.filter (fun kv => kv.1 == "#p")).map (fun kv => kv.2)).flatten
   let pTags := (e.tags.filter (fun tg => tg.head? == some "p")).map (fun tg => tg.get? 1)
   pFilters.isEmpty ||
     pTags.any (fun t => match t with | some v => pFilters.contains v | none => false))

/-- `const [clientId, subId] = uid.split('/')`: the element at index 1 of
the split (so a sub_id containing '/' is truncated at its first '/'). -/
def uidSubId (uid : String) : String :=
  ((uid.splitOn "/").drop 1).headD ""

/-- The subscription loop of the kind-24133 branch: for each registry entry,
the first filter passing `tunnelFilterOk` triggers a single send
(`break`) of `['EVENT', subId, event]` to the subscription's session, with
`subId` recovered from the composite key. -/
def tunnelLoop (e : SignedEvent) : List (String × Subscription) → List Act
  | [] => []
  | (uid, sub) :: rest =>
    (if sub.filters.any (tunnelFilterOk e) then
      [Act.send sub.owner (Frame.event (uidSubId uid) e)]
     else []) ++ tunnelLoop e rest

/-- The broadcast loop of the standard `_onevent` path, inner loop: one
send per filter that matches — there is no `break` after a send. -/
def broadcastFilters (e : SignedEvent) (owner sub_id : String) :
    List EventFilter → List Act
  | [] => []
  | f :: fs =>
    (if match_filter e f then [Act.send owner (Frame.event sub_id e)] else []) ++
      broadcastFilters e owner sub_id fs

/-- The broadcast loop of the standard `_onevent` path, outer loop over
`relay.subs.values()`. -/
def broadcastLoop (e : SignedEvent) : List (String × Subscription) → List Act
  | [] => []
  | (_, sub) :: rest =>
    broadcastFilters e sub.owner sub.sub_id sub.filters ++ broadcastLoop e rest

/-- `_onevent(event)`, parameterized by the validator `vf` (instantiated
with `verify_event sha sv` in the theorems).  Kind 24133: store, run the
tunnel subscription loop, then `OK true`.  Otherwise: on failed validation
send `OK false` and stop (no store, no broadcast); on success send
`OK true`, store, then run the broadcast loop. -/
def onevent (vf : SignedEvent → Bool) (self : String) (s : RelayState)
    (e : SignedEvent) : RelayState × List Act :=
  if e.kind == 24133 then
    ({ s with cache := store s.cache e },
     tunnelLoop e s.subs ++ [Act.send self (Frame.ok e.id true "")])
  else if !(vf e) then
    (s, [Act.send self (Frame.ok e.id false "event failed validation")])
  else
    ({ s with cache := store s.cache e },
     Act.send self (Frame.ok e.id true "") :: broadcastLoop e s.subs)

/-- The replay loop body of `_onreq` for one filter: iterate the cache with
the mutable `limitCount` (initially `filter.limit`); break when the counter
is defined and ≤ 0; emit and decrement on a match. -/
def replayLoop (f : EventFilter) (sub_id : String) :
    Option Int → List SignedEvent → List Frame
  | _, [] => []
  | some l, e :: rest =>
    if l ≤ 0 then []
    else if match_filter e f then
      Frame.event sub_id e :: replayLoop f sub_id (some (l - 1)) rest
    else replayLoop f sub_id (some l) rest
  | none, e :: rest =>
    if match_filter e f then Frame.event sub_id e :: replayLoop f sub_id none rest
    else replayLoop f sub_id none rest

def replayFilter (f : EventFilter) (sub_id : String)
    (cache : List SignedEvent) : List Frame :=
  replayLoop f sub_id f.limit cache

/-- `_onreq(sub_id, filters)`: an empty filter list logs and returns with no
frame at all; otherwise `addSub`, then for each filter the replay loop over
the cache (unchanged by `addSub`), then a single `['EOSE', sub_id]`.  (The
computed-but-unused local `hasNip46Filter` is dead code.)  All frames go to
the requesting session. -/
def onreq (self : String) (s : RelayState) (sub_id : String)
    (filters : List EventFilter) : RelayState × List Act :=
  if filters.isEmpty then (s, [])
  else
    (addSub self s sub_id filters,
     ((filters.flatMap (fun f => replayFilter f sub_id s.cache)).map (Act.send self)) ++
       [Act.send self (Frame.eose sub_id)])

/-! ## Inbound messages and `_handler` -/

/-- Parsed JSON values, classified by how `_handler` consumes them: strings
(the verb and sub ids), objects decoded as events or filters, arrays, and
anything else. -/
inductive JVal where
  | jstr (v : String)
  | jev (e : SignedEvent)
  | jflt (f : EventFilter)
  | jarr (elems : List JVal)
  | jother

def isFlt : JVal → Bool
  | JVal.jflt _ => true
  | _ => false

def toFlt : JVal → Option EventFilter
  | JVal.jflt f => some f
  | _ => none

/-- `_handler(message)`.  `msg` is the result of `JSON.parse` (`none` when
parsing throws); `raw` is the original message text; `clients` are the sids
of the currently open sockets of `relay.wss.clients` (including `self`).
Branches, in source order: a non-empty array starting with `'EVENT'`,
`'REQ'` or `'CLOSE'` dispatches after an arity check (`NOTICE` arity 2 on
failure); any other non-empty array is NIP-46 traffic, re-sent verbatim to
every other open socket; any other parse result gets
`['NOTICE', '', 'Unable to handle message']`; a parse failure gets
`['NOTICE', '', 'Unable to parse message']`.  EVENT payloads that are not
event-shaped objects and REQ tails that are not a string followed by filter
objects are outside the modelled input space (the `(s, [])` fallbacks);
no claim depends on them. -/
def handler (vf : SignedEvent → Bool) (self : String) (clients : List String)
    (s : RelayState) (msg : Option JVal) (raw : String) : RelayState × List Act :=
  match msg with
  | none => (s, [Act.send self (Frame.notice3 "" "Unable to parse message")])
  | some (JVal.jarr (JVal.jstr "EVENT" :: rest)) =>
    if rest.length != 1 then
      (s, [Act.send self (Frame.notice2 "invalid: EVENT message missing params")])
    else
      match rest with
      | [JVal.jev e] => onevent vf self s e
      | _ => (s, [])
  | some (JVal.jarr (JVal.jstr "REQ" :: rest)) =>
    if rest.length < 1 then
      (s, [Act.send self (Frame.notice2 "invalid: REQ message missing params")])
    else
      match rest with
      | JVal.jstr sub_id :: fs =>
        if fs.all isFlt then onreq self s sub_id (fs.filterMap toFlt) else (s, [])
      | _ => (s, [])
  | some (JVal.jarr (JVal.jstr "CLOSE" :: rest)) =>
    if rest.length != 1 then
      (s, [Act.send self (Frame.notice2 "invalid: CLOSE message missing params")])
    else
      match rest with
      | [JVal.jstr sub_id] => (onclose self s sub_id, [])
      | _ => (s, [])
  | some (JVal.jarr (_ :: _)) =>
    (s, (clients.filter (fun c => c != self)).map (fun c => Act.send c (Frame.raw raw)))
  | some _ => (s, [Act.send self (Frame.notice3 "" "Unable to handle message")])

/-! ## Claim-side auxiliary definitions -/

/-- Claim C9's input class: an unparsable message, or an `EVENT` / `REQ` /
`CLOSE` frame with the wrong number of elements (`EVENT` and `CLOSE` take
exactly one argument, `REQ` at least one). -/
def MalformedInbound (m : Option JVal) : Prop :=
  m = none ∨
  (∃ rest, m = some (JVal.jarr (JVal.jstr "EVENT" :: rest)) ∧ rest.length ≠ 1) ∨
  (∃ rest, m = some (JVal.jarr (JVal.jstr "REQ" :: rest)) ∧ rest = []) ∨
  (∃ rest, m = some (JVal.jarr (JVal.jstr "CLOSE" :: rest)) ∧ rest.length ≠ 1)

/-- A `NOTICE` frame of either arity. -/
def isNotice : Frame → Bool
  | Frame.notice2 _ => true
  | Frame.notice3 _ _ => true
  | _ => false

/-- Claim-side truncation (C7): `limit` absent means unlimited, present
means keep that many (a non-positive limit keeps none). -/
def limitTake (lim : Option Int) (l : List α) : List α :=
  match lim with
  | none => l
  | some n => l.take n.toNat

/-- A filter extended with one extra object key (C10): JS object extension
(`filter[k] = ts` / spread) **overwrites** the binding when `k` is already a
key of the object and otherwise adds it at the end of the object's
insertion order — exactly the `mapSet` semantics.  The key is assumed
distinct from the six named fields, as with the other `rest` keys. -/
def extendFilter (f : EventFilter) (k : String) (ts : List String) : EventFilter :=
  { f with rest := mapSet f.rest k ts }

/-! ## Concrete fixtures for witnesses and counterexamples -/

/-- A sample event: kind-1 note by `p1` with one `p` tag. -/
def wEvent : SignedEvent :=
  { content := "hello", created_at := 600000000, id := "e1", kind := 1,
    pubkey := "p1", sig := "sg1", tags := [["p", "x"]] }

/-- A filter exercising every clause, matching `wEvent`. -/
def wFilter : EventFilter :=
  { ids := some ["e1"], authors := some ["p1"], kinds := some [1],
    since := some 500000000, until_ := some 700000000, limit := none,
    rest := [("#p", ["x"])] }

/-- A signing-tunnel (kind 24133) event with a `p` tag. -/
def wTunnelEvent : SignedEvent :=
  { content := "enc", created_at := 600000001, id := "e2", kind := 24133,
    pubkey := "p2", sig := "sg2", tags := [["p", "q"]] }

/-- An always-true signature oracle. -/
def svTrue : String → String → String → Bool := fun _ _ _ => true

/-- A hash oracle that returns `wEvent.id` on every input, making
`wEvent` hash-correct. -/
def shaW : String → String := fun _ => "e1"

/-- An event that is hash- and signature-correct under the oracles of its
counterexample but carries a `created_at` far below the 500,000,000 sanity
floor. -/
def lowTsEvent : SignedEvent :=
  { content := "old", created_at := 100, id := "eold", kind := 1,
    pubkey := "p3", sig := "sg3", tags := [] }

/-- Hash oracle under which `lowTsEvent` is hash-correct. -/
def shaLow : String → String := fun _ => "eold"

/-- A subscription of session `bbb` with sub id `s` and two (identical,
hence both matching) empty filters. -/
def dupSub : Subscription :=
  { filters := [emptyFilter, emptyFilter], owner := "bbb", sub_id := "s" }

/-- Registry holding only `dupSub` under its composite key. -/
def dupState : RelayState :=
  { cache := [], subs := [("bbb/s", dupSub)] }

/-- State with one stored event and no subscriptions. -/
def oneEventState : RelayState :=
  { cache := [wEvent], subs := [] }

/-- The empty relay state. -/
def emptyState : RelayState :=
  { cache := [], subs := [] }

/-- A hash oracle that never matches any event id used in the fixtures. -/
def shaBad : String → String := fun _ => "nomatch"

/-- A subscription listening for kind-24133 events. -/
def tunnelSub : Subscription :=
  { filters := [{ kinds := some [24133] }], owner := "ccc", sub_id := "t1" }

/-- Registry holding only `tunnelSub` under its composite key. -/
def tunnelState : RelayState :=
  { cache := [], subs := [("ccc/t1", tunnelSub)] }

/-- Two more kind-1 events for replay fixtures. -/
def wEventB : SignedEvent :=
  { wEvent with id := "eB", created_at := 600000002 }

def wEventC : SignedEvent :=
  { wEvent with id := "eC", created_at := 600000003 }

/-- A kind-1 filter with `limit: 2`. -/
def c7Filter : EventFilter :=
  { kinds := some [1], limit := some 2 }

/-- A store holding three matching kind-1 events, no subscriptions. -/
def c7State : RelayState :=
  { cache := [wEvent, wEventB, wEventC], subs := [] }

/-- Like `wEvent` but its `p` tag carries `y` (C10's counterexample: it
satisfies the overwritten `#p -> [y]` binding but not the original
`#p -> [x]` one of `wFilter`). -/
def cxEvent : SignedEvent :=
  { wEvent with tags := [["p", "y"]] }

/-! # Theorems -/

/-! ## Generic helper lemmas -/

theorem opt_any_true {α : Type} {p : α → Bool} {o : Option α} :
    o.any p = true ↔ ∃ x, o = some x ∧ p x = true := by
  cases o <;> simp [Option.any]

theorem opt_any_false {α : Type} {p : α → Bool} {o : Option α} :
    o.any p = false ↔ ∀ x, o = some x → p x = false := by
  cases o <;> simp [Option.any]

/-! ## Characterizations of the filter matcher -/

theorem match_tags_nil (tags : List (List String)) : match_tags [] tags = true := rfl

theorem match_tags_eq_true_iff (fs tags : List (List String)) :
    match_tags fs tags = true ↔
      ∀ key terms, (key :: terms) ∈ fs →
        terms = [] ∨ ∃ tg ∈ tags, tg.head? = some key ∧ ∃ t ∈ terms, t ∈ tg.tail := by
  unfold match_tags
  rw [List.all_eq_true]
  constructor
  · intro h key terms hmem
    have h2 := h _ hmem
    simp only [Bool.or_eq_true, List.isEmpty_iff, List.any_eq_true] at h2
    rcases h2 with h2 | ⟨tg, htg, hg⟩
    · exact Or.inl h2
    · right
      cases tg with
      | nil => simp at hg
      | cons n ps =>
        rw [Bool.and_eq_true, beq_iff_eq] at hg
        obtain ⟨rfl, hterm⟩ := hg
        rw [List.any_eq_true] at hterm
        obtain ⟨t, ht, hmemt⟩ := hterm
        exact ⟨n :: ps, htg, rfl, t, ht, by simpa [List.contains, List.elem_iff] using hmemt⟩
  · intro h tf htf
    cases tf with
    | nil => rfl
    | cons key terms =>
      simp only [Bool.or_eq_true, List.isEmpty_iff, List.any_eq_true]
      rcases h key terms htf with h1 | ⟨tg, htg, hhead, t, ht, hmemt⟩
      · exact Or.inl h1
      · right
        refine ⟨tg, htg, ?_⟩
        cases tg with
        | nil => simp at hhead
        | cons n ps =>
          simp only [List.head?_cons, Option.some.injEq] at hhead
          subst hhead
          rw [Bool.and_eq_true, beq_iff_eq]
          refine ⟨rfl, ?_⟩
          rw [List.any_eq_true]
          exact ⟨t, ht, by simpa [List.contains, List.elem_iff] using hmemt⟩

theorem match_filter_eq_true_iff (e : SignedEvent) (f : EventFilter) :
    match_filter e f = true ↔
      (∀ l, f.ids = some l → l.contains e.id = true) ∧
      (∀ sn, f.since = some sn → ¬ (e.created_at < sn)) ∧
      (∀ ut, f.until_ = some ut → ¬ (e.created_at > ut)) ∧
      (∀ l, f.authors = some l → l.contains e.pubkey = true) ∧
      (∀ l, f.kinds = some l → l.contains e.kind = true) ∧
      match_tags (tag_filters f) e.tags = true := by
  unfold match_filter
  split_ifs with h1 h2 h3 h4 h5 h6
  · rw [opt_any_true] at h1
    obtain ⟨l, hl, hc⟩ := h1
    rw [Bool.not_eq_true'] at hc
    exact iff_of_false (by simp) (fun hh => by rw [hh.1 l hl] at hc; cases hc)
  · rw [opt_any_true] at h2
    obtain ⟨sn, hsn, hc⟩ := h2
    rw [decide_eq_true_eq] at hc
    exact iff_of_false (by simp) (fun hh => hh.2.1 sn hsn hc)
  · rw [opt_any_true] at h3
    obtain ⟨ut, hut, hc⟩ := h3
    rw [decide_eq_true_eq] at hc
    exact iff_of_false (by simp) (fun hh => hh.2.2.1 ut hut hc)
  · rw [opt_any_true] at h4
    obtain ⟨l, hl, hc⟩ := h4
    rw [Bool.not_eq_true'] at hc
    exact iff_of_false (by simp) (fun hh => by rw [hh.2.2.2.1 l hl] at hc; cases hc)
  · rw [opt_any_true] at h5
    obtain ⟨l, hl, hc⟩ := h5
    rw [Bool.not_eq_true'] at hc
    exact iff_of_false (by simp) (fun hh => by rw [hh.2.2.2.2.1 l hl] at hc; cases hc)
  all_goals
    rw [Bool.not_eq_true] at h1 h2 h3 h4 h5
    rw [opt_any_false] at h1 h2 h3 h4 h5
    have g1 : ∀ l, f.ids = some l → l.contains e.id = true := by
      intro l hl; have := h1 l hl; rwa [Bool.not_eq_false'] at this
    have g2 : ∀ sn, f.since = some sn → ¬ (e.created_at < sn) := by
      intro sn hsn; have := h2 sn hsn; rwa [decide_eq_false_iff_not] at this
    have g3 : ∀ ut, f.until_ = some ut → ¬ (e.created_at > ut) := by
      intro ut hut; have := h3 ut hut; rwa [decide_eq_false_iff_not] at this
    have g4 : ∀ l, f.authors = some l → l.contains e.pubkey = true := by
      intro l hl; have := h4 l hl; rwa [Bool.not_eq_false'] at this
    have g5 : ∀ l, f.kinds = some l → l.contains e.kind = true := by
      intro l hl; have := h5 l hl; rwa [Bool.not_eq_false'] at this
  · exact ⟨fun hm => ⟨g1, g2, g3, g4, g5, hm⟩, fun hh => hh.2.2.2.2.2⟩
  · have htf : tag_filters f = [] := by
      rcases List.eq_nil_or_concat (tag_filters f) with h | ⟨l2, a, hl2⟩
      · exact h
      · exfalso; apply h6; rw [hl2]; simp
    exact iff_of_true rfl ⟨g1, g2, g3, g4, g5, by rw [htf]; exact match_tags_nil _⟩

theorem tag_entry_iff (f : EventFilter)
    (hkeys : ∀ kv ∈ f.rest, startsWithHash kv.1 = true →
      (kv.1.drop 1).take 1 = kv.1.drop 1)
    (R : String → List String → Prop) :
    (∀ key terms, (key :: terms) ∈ tag_filters f → R key terms) ↔
      (∀ k ts, (k, ts) ∈ f.rest → startsWithHash k = true → R (k.drop 1) ts) := by
  constructor
  · intro h k ts hmem hsw
    apply h
    have hm : ((k.drop 1).take 1) :: ts ∈ tag_filters f := by
      unfold tag_filters
      exact List.mem_map_of_mem _ (List.mem_filter.mpr ⟨hmem, hsw⟩)
    rwa [hkeys (k, ts) hmem hsw] at hm
  · intro h key terms hmem
    unfold tag_filters at hmem
    rw [List.mem_map] at hmem
    obtain ⟨kv, hkv, heq⟩ := hmem
    rw [List.mem_filter] at hkv
    rw [hkeys kv hkv.1 hkv.2] at heq
    rw [List.cons.injEq] at heq
    obtain ⟨hk, hts⟩ := heq
    have h2 := h kv.1 kv.2 hkv.1 hkv.2
    rw [hk] at h2
    rwa [hts] at h2

/-- Claim C1: `match_filter e f` is true exactly when every clause present
in `f` holds for `e` — `ids` / `since` / `until` / `authors` / `kinds`
membership and bounds, and each tag-filter key satisfied by some tag with
some parameter among the key's terms (conjunction across keys, disjunction
across terms, empty term lists vacuous) — and the empty filter matches
every event.  The hypothesis `hkeys` states the specification's filter data
model: every tag-filter key is `#` followed by a single-character (or
empty) tag name, so that the name equals its own first character; keys with
longer names are the subject of claim C10. -/
theorem C1_match_filter_spec (e : SignedEvent) (f : EventFilter)
    (hkeys : ∀ kv ∈ f.rest, startsWithHash kv.1 = true →
      (kv.1.drop 1).take 1 = kv.1.drop 1) :
    (match_filter e f = true ↔ matches_spec e f) ∧
      match_filter e emptyFilter = true := by
  refine ⟨?_, rfl⟩
  rw [match_filter_eq_true_iff]
  unfold matches_spec
  refine and_congr ?_ (and_congr ?_ (and_congr ?_ (and_congr ?_ (and_congr ?_ ?_))))
  · constructor
    · intro h l hl; have := h l hl; rwa [List.contains, List.elem_iff] at this
    · intro h l hl; rw [List.contains, List.elem_iff]; exact h l hl
  · constructor
    · intro h sn hsn; exact Int.not_lt.mp (h sn hsn)
    · intro h sn hsn; exact Int.not_lt.mpr (h sn hsn)
  · constructor
    · intro h ut hut; exact Int.not_lt.mp (h ut hut)
    · intro h ut hut; exact Int.not_lt.mpr (h ut hut)
  · constructor
    · intro h l hl; have := h l hl; rwa [List.contains, List.elem_iff] at this
    · intro h l hl; rw [List.contains, List.elem_iff]; exact h l hl
  · constructor
    · intro h l hl; have := h l hl; rwa [List.contains, List.elem_iff] at this
    · intro h l hl; rw [List.contains, List.elem_iff]; exact h l hl
  · rw [match_tags_eq_true_iff]
    exact tag_entry_iff f hkeys _

/-- Witness for C1 at a concrete event and filter exercising every clause. -/
theorem C1_match_filter_spec_witness :
    (match_filter wEvent wFilter = true ↔ matches_spec wEvent wFilter) ∧
      match_filter wEvent emptyFilter = true :=
  C1_match_filter_spec wEvent wFilter (by decide)

/-! ## Loop characterizations for `_onevent` -/

theorem broadcastFilters_eq (e : SignedEvent) (o sid : String)
    (fs : List EventFilter) :
    broadcastFilters e o sid fs =
      (fs.filter (fun f => match_filter e f)).map
        (fun _ => Act.send o (Frame.event sid e)) := by
  induction fs with
  | nil => rfl
  | cons f rest ih =>
    by_cases h : match_filter e f
    · simp [broadcastFilters, List.filter_cons, h, ih]
    · simp [broadcastFilters, List.filter_cons, h, ih]

theorem broadcastLoop_eq (e : SignedEvent) (subs : List (String × Subscription)) :
    broadcastLoop e subs =
      subs.flatMap (fun p =>
        (p.2.filters.filter (fun f => match_filter e f)).map
          (fun _ => Act.send p.2.owner (Frame.event p.2.sub_id e))) := by
  induction subs with
  | nil => rfl
  | cons p rest ih =>
    cases p with
    | mk uid sub => simp [broadcastLoop, broadcastFilters_eq, ih]

theorem tunnelLoop_eq (e : SignedEvent) (subs : List (String × Subscription)) :
    tunnelLoop e subs =
      subs.filterMap (fun p =>
        if p.2.filters.any (tunnelFilterOk e) then
          some (Act.send p.2.owner (Frame.event (uidSubId p.1) e))
        else none) := by
  induction subs with
  | nil => rfl
  | cons p rest ih =>
    cases p with
    | mk uid sub =>
      rw [List.filterMap_cons]
      by_cases h : sub.filters.any (tunnelFilterOk e) = true
      · simp only [tunnelLoop]
        rw [if_pos h, if_pos h, ih]
        rfl
      · simp only [tunnelLoop]
        rw [if_neg h, if_neg h, ih]
        rfl

/-! ## Claim C2 -/

/-- Claim C2: when an EVENT frame carries an event that fails validation
(`verify_event` false — hash mismatch or bad signature; such events are on
the validating, non-tunnel path, so `kind ≠ 24133`), the session sends
`OK[id, false, reason]`, the state (store and registry) is unchanged, and
no `EVENT` frame is delivered to anyone. -/
theorem C2_invalid_event_rejected (sha : String → String)
    (sv : String → String → String → Bool) (self : String) (s : RelayState)
    (e : SignedEvent) (hk : e.kind ≠ 24133)
    (hv : verify_event sha sv e = false) :
    onevent (verify_event sha sv) self s e =
      (s, [Act.send self (Frame.ok e.id false "event failed validation")]) ∧
    ∀ dst subId ev,
      Act.send dst (Frame.event subId ev) ∉
        (onevent (verify_event sha sv) self s e).2 := by
  have hkb : (e.kind == 24133) = false := by simpa using hk
  have h1 : onevent (verify_event sha sv) self s e =
      (s, [Act.send self (Frame.ok e.id false "event failed validation")]) := by
    simp [onevent, hkb, hv]
  refine ⟨h1, ?_⟩
  rw [h1]
  intro dst subId ev hmem
  simp at hmem

/-- Witness for C2: `wEvent` under a hash oracle that contradicts its id is
rejected, leaving a state with a live matching subscription untouched. -/
theorem C2_invalid_event_rejected_witness :
    onevent (verify_event shaBad svTrue) "aaa" dupState wEvent =
      (dupState, [Act.send "aaa" (Frame.ok wEvent.id false "event failed validation")]) ∧
    ∀ dst subId ev,
      Act.send dst (Frame.event subId ev) ∉
        (onevent (verify_event shaBad svTrue) "aaa" dupState wEvent).2 :=
  C2_invalid_event_rejected shaBad svTrue "aaa" dupState wEvent (by decide) (by decide)

/-! ## Claim C3 -/

/-- Counterexample to C3: a `["REQ", subId]` frame with zero filters
produces no frame at all — in particular not the single `EOSE[subId]` the
claim asserts (`_onreq` returns before its EOSE send when the filter list
is empty). -/
theorem C3_counterexample :
    handler (fun _ => true) "aaa" ["aaa"] oneEventState
        (some (JVal.jarr [JVal.jstr "REQ", JVal.jstr "s1"])) "m" =
      (oneEventState, []) ∧
    ¬ ((handler (fun _ => true) "aaa" ["aaa"] oneEventState
        (some (JVal.jarr [JVal.jstr "REQ", JVal.jstr "s1"])) "m").2.countP
          (fun a => decide (a = Act.send "aaa" (Frame.eose "s1"))) = 1) := by
  exact ⟨rfl, by decide⟩

/-- C3 amended: processing `["REQ", subId]` with zero filters replays no
stored events, registers no subscription, and sends no frame at all — no
`EOSE` is emitted (the claim's "still causes exactly one EOSE" fails; the
code returns early). -/
theorem C3_amended_no_eose (vf : SignedEvent → Bool) (self : String)
    (clients : List String) (s : RelayState) (subId raw : String) :
    handler vf self clients s
      (some (JVal.jarr [JVal.jstr "REQ", JVal.jstr subId])) raw = (s, []) := rfl

/-! ## Claim C4 -/

/-- Counterexample to C4: a kind-24133 EVENT from `aaa` while socket `bbb`
is connected (with no subscription) produces only the `OK` to the
publisher; nothing is broadcast to the other socket, contradicting
"broadcast the raw frame to every other connected socket
unconditionally". -/
theorem C4_counterexample :
    (handler (fun _ => false) "aaa" ["aaa", "bbb"] emptyState
        (some (JVal.jarr [JVal.jstr "EVENT", JVal.jev wTunnelEvent])) "m").2 =
      [Act.send "aaa" (Frame.ok wTunnelEvent.id true "")] ∧
    ∀ fr, Act.send "bbb" fr ∉
      (handler (fun _ => false) "aaa" ["aaa", "bbb"] emptyState
        (some (JVal.jarr [JVal.jstr "EVENT", JVal.jev wTunnelEvent])) "m").2 := by
  refine ⟨rfl, ?_⟩
  intro fr hmem
  rw [show (handler (fun _ => false) "aaa" ["aaa", "bbb"] emptyState
        (some (JVal.jarr [JVal.jstr "EVENT", JVal.jev wTunnelEvent])) "m").2 =
      [Act.send "aaa" (Frame.ok wTunnelEvent.id true "")] from rfl] at hmem
  simp at hmem

/-- C4 amended: a kind-24133 EVENT skips validation (the result does not
depend on the validator), stores the event, and delivers
`EVENT[subId', event]` exactly once to each registered subscription having
some filter whose `kinds` include 24133 and whose `#p` terms (when present)
intersect the event's `p`-tag values — `subId'` being the segment of the
composite registry key after its first `/` — and then acknowledges the
publisher with `OK[id, true, ""]`.  Sockets without such a subscription
receive nothing. -/
theorem C4_amended_tunnel_path (vf vf2 : SignedEvent → Bool) (self : String)
    (s : RelayState) (e : SignedEvent) (hk : e.kind = 24133) :
    onevent vf self s e = onevent vf2 self s e ∧
    onevent vf self s e =
      ({ s with cache := store s.cache e },
        tunnelLoop e s.subs ++ [Act.send self (Frame.ok e.id true "")]) ∧
    tunnelLoop e s.subs =
      s.subs.filterMap (fun p =>
        if p.2.filters.any (tunnelFilterOk e) then
          some (Act.send p.2.owner (Frame.event (uidSubId p.1) e))
        else none) := by
  have hkb : (e.kind == 24133) = true := by simpa using hk
  exact ⟨by simp [onevent, hkb], by simp [onevent, hkb], tunnelLoop_eq e s.subs⟩

/-- Witness for C4's amended theorem: the tunnel event reaches the one
kind-24133 subscription and is acknowledged, independently of the
(here always-false) validator. -/
theorem C4_amended_tunnel_path_witness :
    onevent (fun _ => false) "aaa" tunnelState wTunnelEvent =
      onevent (fun _ => true) "aaa" tunnelState wTunnelEvent ∧
    onevent (fun _ => false) "aaa" tunnelState wTunnelEvent =
      ({ tunnelState with cache := store tunnelState.cache wTunnelEvent },
        tunnelLoop wTunnelEvent tunnelState.subs ++
          [Act.send "aaa" (Frame.ok wTunnelEvent.id true "")]) ∧
    tunnelLoop wTunnelEvent tunnelState.subs =
      tunnelState.subs.filterMap (fun p =>
        if p.2.filters.any (tunnelFilterOk wTunnelEvent) then
          some (Act.send p.2.owner (Frame.event (uidSubId p.1) wTunnelEvent))
        else none) :=
  C4_amended_tunnel_path (fun _ => false) (fun _ => true) "aaa" tunnelState
    wTunnelEvent (by decide)

/-! ## Claim C5 -/

/-- Counterexample to C5: a valid kind-1 event against a registry whose one
subscription holds two (identical, both matching) filters is delivered to
that subscription twice, not "only once" — the broadcast loop has no
`break`. -/
theorem C5_counterexample :
    verify_event shaW svTrue wEvent = true ∧
    wEvent.kind ≠ 24133 ∧
    (onevent (verify_event shaW svTrue) "aaa" dupState wEvent).2.countP
        (fun a => decide (a = Act.send "bbb" (Frame.event "s" wEvent))) = 2 ∧
    ¬ ((onevent (verify_event shaW svTrue) "aaa" dupState wEvent).2.countP
        (fun a => decide (a = Act.send "bbb" (Frame.event "s" wEvent))) = 1) := by
  exact ⟨by decide, by decide, by decide, by decide⟩

/-- C5 amended: on a valid non-tunnel event the session sends
`OK[id, true, ""]`, stores the event, and then every registered
subscription receives `EVENT[subId, event]` once **per matching filter**
(so a subscription with several matching filters receives several copies,
and one with no matching filter receives nothing). -/
theorem C5_amended_broadcast (sha : String → String)
    (sv : String → String → String → Bool) (self : String) (s : RelayState)
    (e : SignedEvent) (hk : e.kind ≠ 24133)
    (hv : verify_event sha sv e = true) :
    onevent (verify_event sha sv) self s e =
      ({ s with cache := store s.cache e },
        Act.send self (Frame.ok e.id true "") :: broadcastLoop e s.subs) ∧
    broadcastLoop e s.subs =
      s.subs.flatMap (fun p =>
        (p.2.filters.filter (fun f => match_filter e f)).map
          (fun _ => Act.send p.2.owner (Frame.event p.2.sub_id e))) := by
  have hkb : (e.kind == 24133) = false := by simpa using hk
  exact ⟨by simp [onevent, hkb, hv], broadcastLoop_eq e s.subs⟩

/-- Witness for C5's amended theorem at the duplicate-filter registry. -/
theorem C5_amended_broadcast_witness :
    onevent (verify_event shaW svTrue) "aaa" dupState wEvent =
      ({ dupState with cache := store dupState.cache wEvent },
        Act.send "aaa" (Frame.ok wEvent.id true "") ::
          broadcastLoop wEvent dupState.subs) ∧
    broadcastLoop wEvent dupState.subs =
      dupState.subs.flatMap (fun p =>
        (p.2.filters.filter (fun f => match_filter wEvent f)).map
          (fun _ => Act.send p.2.owner (Frame.event p.2.sub_id wEvent))) :=
  C5_amended_broadcast shaW svTrue "aaa" dupState wEvent (by decide) (by decide)

/-! ## Claim C6 -/

/-- Counterexample to C6: under oracles for which `lowTsEvent` is hash- and
signature-correct, the validating EVENT path accepts, stores and
acknowledges it although its `created_at` is 100, far below the
500,000,000 floor — `verify_event` never applies `event_schema`'s `stamp`
bound. -/
theorem C6_counterexample :
    verify_event shaLow svTrue lowTsEvent = true ∧
    lowTsEvent.created_at < 500000000 ∧
    lowTsEvent.kind ≠ 24133 ∧
    onevent (verify_event shaLow svTrue) "aaa" emptyState lowTsEvent =
      ({ cache := [lowTsEvent], subs := [] },
        [Act.send "aaa" (Frame.ok lowTsEvent.id true "")]) := by
  exact ⟨by decide, by decide, by decide, by decide⟩

/-- C6 amended: the validating EVENT path enforces no `created_at` floor:
`verify_event` is exactly the hash comparison conjoined with the signature
check (no clause mentions `created_at` bounds — the `stamp` floor lives
only in the unused zod `event_schema`), and any event passing it is stored
and acknowledged with `OK true` regardless of its timestamp. -/
theorem C6_amended_no_floor (sha : String → String)
    (sv : String → String → String → Bool) (self : String) (s : RelayState)
    (e : SignedEvent) (hk : e.kind ≠ 24133)
    (hv : verify_event sha sv e = true) :
    verify_event sha sv e =
      (!(sha (serialize_event e) != e.id) && sv e.sig e.id e.pubkey) ∧
    (onevent (verify_event sha sv) self s e).1.cache = store s.cache e ∧
    (onevent (verify_event sha sv) self s e).2.head? =
      some (Act.send self (Frame.ok e.id true "")) := by
  have hkb : (e.kind == 24133) = false := by simpa using hk
  refine ⟨?_, by simp [onevent, hkb, hv], by simp [onevent, hkb, hv]⟩
  unfold verify_event
  cases h : (sha (serialize_event e) != e.id) <;> simp [h]

/-- Witness for C6's amended theorem, instantiated at the sub-floor
`lowTsEvent`: acceptance despite `created_at = 100`. -/
theorem C6_amended_no_floor_witness :
    verify_event shaLow svTrue lowTsEvent =
      (!(shaLow (serialize_event lowTsEvent) != lowTsEvent.id) &&
        svTrue lowTsEvent.sig lowTsEvent.id lowTsEvent.pubkey) ∧
    (onevent (verify_event shaLow svTrue) "aaa" emptyState lowTsEvent).1.cache =
      store emptyState.cache lowTsEvent ∧
    (onevent (verify_event shaLow svTrue) "aaa" emptyState lowTsEvent).2.head? =
      some (Act.send "aaa" (Frame.ok lowTsEvent.id true "")) :=
  C6_amended_no_floor shaLow svTrue "aaa" emptyState lowTsEvent (by decide) (by decide)

/-! ## Claim C7 -/

theorem replayLoop_none_eq (f : EventFilter) (sid : String)
    (cache : List SignedEvent) :
    replayLoop f sid none cache =
      (cache.filter (fun e => match_filter e f)).map (Frame.event sid) := by
  induction cache with
  | nil => rfl
  | cons e rest ih =>
    by_cases h : match_filter e f = true
    · simp only [replayLoop]
      rw [if_pos h, ih, List.filter_cons, if_pos h]
      rfl
    · simp only [replayLoop]
      rw [if_neg h, ih, List.filter_cons, if_neg h]

theorem replayLoop_some_eq (f : EventFilter) (sid : String) (l : Int)
    (cache : List SignedEvent) :
    replayLoop f sid (some l) cache =
      ((cache.filter (fun e => match_filter e f)).take l.toNat).map
        (Frame.event sid) := by
  induction cache generalizing l with
  | nil => simp [replayLoop]
  | cons e rest ih =>
    by_cases hl : l ≤ 0
    · have h0 : l.toNat = 0 := by omega
      simp only [replayLoop]
      rw [if_pos hl, h0]
      simp
    · by_cases h : match_filter e f = true
      · have htn : l.toNat = (l - 1).toNat + 1 := by omega
        simp only [replayLoop]
        rw [if_neg hl, if_pos h, ih (l - 1), List.filter_cons, if_pos h, htn,
          List.take_succ_cons]
        rfl
      · simp only [replayLoop]
        rw [if_neg hl, if_neg h, ih l, List.filter_cons, if_neg h]

theorem replayFilter_eq (f : EventFilter) (sid : String)
    (cache : List SignedEvent) :
    replayFilter f sid cache =
      (limitTake f.limit (cache.filter (fun e => match_filter e f))).map
        (Frame.event sid) := by
  unfold replayFilter limitTake
  cases hf : f.limit with
  | none => exact replayLoop_none_eq f sid cache
  | some l => exact replayLoop_some_eq f sid l cache

/-- Claim C7: a REQ with `n ≥ 1` filters replays, for each filter
independently, the matching stored events in store order truncated to the
filter's `limit` when set (unlimited otherwise); a filter with limit `L`
against more than `L` matching stored events replays exactly `L`; and
exactly one `EOSE[subId]` is sent, after all filters have been replayed. -/
theorem C7_req_replay (self : String) (s : RelayState) (sub_id : String)
    (fs : List EventFilter) (hne : fs ≠ []) :
    onreq self s sub_id fs =
      (addSub self s sub_id fs,
        ((fs.flatMap (fun f =>
            (limitTake f.limit (s.cache.filter (fun e => match_filter e f))).map
              (Frame.event sub_id))).map (Act.send self)) ++
          [Act.send self (Frame.eose sub_id)]) ∧
    (∀ f ∈ fs, ∀ L : Int, f.limit = some L →
      L.toNat < (s.cache.filter (fun e => match_filter e f)).length →
      (replayFilter f sub_id s.cache).length = L.toNat) ∧
    (onreq self s sub_id fs).2.countP
        (fun a => decide (a = Act.send self (Frame.eose sub_id))) = 1 := by
  have hie : fs.isEmpty = false := by
    cases fs with
    | nil => exact absurd rfl hne
    | cons f rest => rfl
  have h1 : onreq self s sub_id fs =
      (addSub self s sub_id fs,
        ((fs.flatMap (fun f =>
            (limitTake f.limit (s.cache.filter (fun e => match_filter e f))).map
              (Frame.event sub_id))).map (Act.send self)) ++
          [Act.send self (Frame.eose sub_id)]) := by
    unfold onreq
    rw [if_neg (show ¬ fs.isEmpty = true by rw [hie]; exact Bool.false_ne_true)]
    have hfe : (fun f => replayFilter f sub_id s.cache) =
        (fun f =>
          (limitTake f.limit (s.cache.filter (fun e => match_filter e f))).map
            (Frame.event sub_id)) :=
      funext (fun f => replayFilter_eq f sub_id s.cache)
    rw [hfe]
  refine ⟨h1, ?_, ?_⟩
  · intro f hf L hL hlen
    rw [replayFilter_eq, hL, List.length_map]
    unfold limitTake
    rw [List.length_take]
    omega
  · rw [h1]
    simp only [List.countP_append]
    have hz : ((fs.flatMap (fun f =>
        (limitTake f.limit (s.cache.filter (fun e => match_filter e f))).map
          (Frame.event sub_id))).map (Act.send self)).countP
        (fun a => decide (a = Act.send self (Frame.eose sub_id))) = 0 := by
      rw [List.countP_eq_zero]
      intro a ha
      rw [List.mem_map] at ha
      obtain ⟨fr, hfr, rfl⟩ := ha
      rw [List.mem_flatMap] at hfr
      obtain ⟨f, hf, hfr2⟩ := hfr
      rw [List.mem_map] at hfr2
      obtain ⟨e, he, rfl⟩ := hfr2
      simp
    rw [hz]
    simp

/-- Witness for C7: limit 2 against three matching stored events. -/
theorem C7_req_replay_witness :
    onreq "aaa" c7State "s7" [c7Filter] =
      (addSub "aaa" c7State "s7" [c7Filter],
        (([c7Filter].flatMap (fun f =>
            (limitTake f.limit (c7State.cache.filter (fun e => match_filter e f))).map
              (Frame.event "s7"))).map (Act.send "aaa")) ++
          [Act.send "aaa" (Frame.eose "s7")]) ∧
    (∀ f ∈ [c7Filter], ∀ L : Int, f.limit = some L →
      L.toNat < (c7State.cache.filter (fun e => match_filter e f)).length →
      (replayFilter f "s7" c7State.cache).length = L.toNat) ∧
    (onreq "aaa" c7State "s7" [c7Filter]).2.countP
        (fun a => decide (a = Act.send "aaa" (Frame.eose "s7"))) = 1 :=
  C7_req_replay "aaa" c7State "s7" [c7Filter] (by decide)

/-! ## Claim C8 -/

theorem mapGet_overwrite_found {α : Type} (k : String) (v : α)
    (m : List (String × α)) (h : mapHasKey m k = true) :
    mapGet (mapOverwrite k v m) k = some v := by
  induction m with
  | nil => simp [mapHasKey] at h
  | cons p rest ih =>
    by_cases hp : (p.1 == k) = true
    · simp [mapOverwrite, hp, mapGet]
    · have h2 : mapHasKey rest k = true := by
        rw [mapHasKey, Bool.or_eq_true] at h
        exact h.resolve_left (by simp [hp])
      simp [mapOverwrite, hp, mapGet, ih h2]

theorem mapGet_append_single {α : Type} (k : String) (v : α)
    (m : List (String × α)) (h : mapHasKey m k = false) :
    mapGet (m ++ [(k, v)]) k = some v := by
  induction m with
  | nil => simp [mapGet]
  | cons p rest ih =>
    rw [mapHasKey, Bool.or_eq_false_iff] at h
    simp only [List.cons_append, mapGet, h.1]
    rw [if_neg (by simp [h.1])]
    exact ih h.2

theorem mapGet_set_self {α : Type} (m : List (String × α)) (k : String) (v : α) :
    mapGet (mapSet m k v) k = some v := by
  unfold mapSet
  by_cases h : mapHasKey m k = true
  · rw [if_pos h]; exact mapGet_overwrite_found k v m h
  · rw [if_neg h]; exact mapGet_append_single k v m (by simpa using h)

theorem mapGet_overwrite_ne {α : Type} (k k2 : String) (v : α)
    (m : List (String × α)) (h : k2 ≠ k) :
    mapGet (mapOverwrite k v m) k2 = mapGet m k2 := by
  induction m with
  | nil => rfl
  | cons p rest ih =>
    by_cases hp : (p.1 == k) = true
    · have hpk : p.1 = k := by simpa using hp
      have hkk : (k == k2) = false := by
        simp only [beq_eq_false_iff_ne, ne_eq]
        exact fun hh => h hh.symm
      simp [mapOverwrite, hp, mapGet, hkk, hpk, ih]
    · simp [mapOverwrite, hp, mapGet, ih]

theorem mapGet_append_single_ne {α : Type} (k k2 : String) (v : α)
    (m : List (String × α)) (h : k2 ≠ k) :
    mapGet (m ++ [(k, v)]) k2 = mapGet m k2 := by
  induction m with
  | nil =>
    have hkk : ¬ ((k == k2) = true) := by
      simp only [beq_iff_eq]
      exact fun hh => h hh.symm
    show (if (k == k2) = true then some v else mapGet [] k2) =
      mapGet ([] : List (String × α)) k2
    rw [if_neg hkk]
  | cons p rest ih =>
    simp only [List.cons_append, mapGet]
    exact if_congr Iff.rfl rfl ih

theorem mapGet_set_ne {α : Type} (m : List (String × α)) (k k2 : String) (v : α)
    (h : k2 ≠ k) : mapGet (mapSet m k v) k2 = mapGet m k2 := by
  unfold mapSet
  by_cases hk : mapHasKey m k = true
  · rw [if_pos hk]; exact mapGet_overwrite_ne k k2 v m h
  · rw [if_neg hk]; exact mapGet_append_single_ne k k2 v m h

theorem mapGet_delete_ne {α : Type} (m : List (String × α)) (k k2 : String)
    (h : k2 ≠ k) : mapGet (mapDelete m k) k2 = mapGet m k2 := by
  induction m with
  | nil => rfl
  | cons p rest ih =>
    by_cases hp : (p.1 == k) = true
    · have hpk : p.1 = k := by simpa using hp
      have hne : (p.1 == k2) = false := by
        simp only [beq_eq_false_iff_ne, ne_eq, hpk]
        exact fun hh => h hh.symm
      simp [mapDelete, hp, mapGet, hne, ih]
    · simp [mapDelete, hp, mapGet, ih]

theorem length_mapOverwrite {α : Type} (k : String) (v : α)
    (m : List (String × α)) : (mapOverwrite k v m).length = m.length := by
  induction m with
  | nil => rfl
  | cons p rest ih => simp [mapOverwrite, ih]

theorem mapHasKey_overwrite {α : Type} (k : String) (v : α)
    (m : List (String × α)) :
    mapHasKey (mapOverwrite k v m) k = mapHasKey m k := by
  induction m with
  | nil => rfl
  | cons p rest ih =>
    by_cases hp : (p.1 == k) = true
    · simp [mapOverwrite, hp, mapHasKey, ih]
    · simp [mapOverwrite, hp, mapHasKey, ih]

theorem mapHasKey_append_single {α : Type} (k : String) (v : α)
    (m : List (String × α)) : mapHasKey (m ++ [(k, v)]) k = true := by
  induction m with
  | nil => simp [mapHasKey]
  | cons p rest ih => simp [mapHasKey, ih]

theorem mapHasKey_set_self {α : Type} (m : List (String × α)) (k : String)
    (v : α) : mapHasKey (mapSet m k v) k = true := by
  unfold mapSet
  by_cases hk : mapHasKey m k = true
  · rw [if_pos hk, mapHasKey_overwrite, hk]
  · rw [if_neg hk]; exact mapHasKey_append_single k v m

theorem length_set_of_hasKey {α : Type} (m : List (String × α)) (k : String)
    (v : α) (h : mapHasKey m k = true) : (mapSet m k v).length = m.length := by
  unfold mapSet
  rw [if_pos h]
  exact length_mapOverwrite k v m

theorem subKey_inj_left (sid1 sid2 sub : String) (h : sid1 ≠ sid2) :
    subKey sid1 sub ≠ subKey sid2 sub := by
  intro heq
  apply h
  unfold subKey at heq
  rw [String.ext_iff] at heq
  simp only [String.data_append] at heq
  have h2 := (List.append_inj' heq rfl).1
  have h3 := (List.append_inj' h2 rfl).1
  exact String.ext h3

/-- Claim C8: registry keys are `connectionId + "/" + subId`: the same
subscription id on two connections with distinct ids yields two distinct,
non-colliding registry entries; re-adding under the same connection and
subscription id overwrites the prior entry (same lookup key maps to the new
filters, and no entry is added); and `remSub` followed by `addSub` on the
same composite key (a CLOSE then REQ) yields a registry that looks up
identically to a single fresh `addSub`. -/
theorem C8_registry_keys (s : RelayState) (sid1 sid2 sid sub : String)
    (fs1 fs2 gfs1 gfs2 : List EventFilter) (h : sid1 ≠ sid2) :
    subKey sid1 sub ≠ subKey sid2 sub ∧
    (mapGet (addSub sid2 (addSub sid1 s sub fs1) sub fs2).subs (subKey sid1 sub) =
        some ⟨fs1, sid1, sub⟩ ∧
      mapGet (addSub sid2 (addSub sid1 s sub fs1) sub fs2).subs (subKey sid2 sub) =
        some ⟨fs2, sid2, sub⟩) ∧
    (mapGet (addSub sid (addSub sid s sub gfs1) sub gfs2).subs (subKey sid sub) =
        some ⟨gfs2, sid, sub⟩ ∧
      (addSub sid (addSub sid s sub gfs1) sub gfs2).subs.length =
        (addSub sid s sub gfs1).subs.length) ∧
    (∀ k, mapGet (addSub sid (remSub sid s sub) sub gfs2).subs k =
        mapGet (addSub sid s sub gfs2).subs k) := by
  have hkey : subKey sid1 sub ≠ subKey sid2 sub := subKey_inj_left sid1 sid2 sub h
  refine ⟨hkey, ⟨?_, ?_⟩, ⟨?_, ?_⟩, ?_⟩
  · unfold addSub
    rw [mapGet_set_ne _ _ _ _ hkey]
    exact mapGet_set_self _ _ _
  · unfold addSub
    exact mapGet_set_self _ _ _
  · unfold addSub
    exact mapGet_set_self _ _ _
  · unfold addSub
    exact length_set_of_hasKey _ _ _ (mapHasKey_set_self _ _ _)
  · intro k
    unfold addSub remSub
    by_cases hk : k = subKey sid sub
    · rw [hk, mapGet_set_self, mapGet_set_self]
    · rw [mapGet_set_ne _ _ _ _ hk, mapGet_set_ne _ _ _ _ hk,
        mapGet_delete_ne _ _ _ hk]

/-- Witness for C8 at concrete connection ids `111` and `222`. -/
theorem C8_registry_keys_witness :
    subKey "111" "s" ≠ subKey "222" "s" ∧
    (mapGet (addSub "222" (addSub "111" emptyState "s" [emptyFilter]) "s"
          [wFilter]).subs (subKey "111" "s") = some ⟨[emptyFilter], "111", "s"⟩ ∧
      mapGet (addSub "222" (addSub "111" emptyState "s" [emptyFilter]) "s"
          [wFilter]).subs (subKey "222" "s") = some ⟨[wFilter], "222", "s"⟩) ∧
    (mapGet (addSub "333" (addSub "333" emptyState "s" []) "s"
          [emptyFilter]).subs (subKey "333" "s") = some ⟨[emptyFilter], "333", "s"⟩ ∧
      (addSub "333" (addSub "333" emptyState "s" []) "s" [emptyFilter]).subs.length =
        (addSub "333" emptyState "s" []).subs.length) ∧
    (∀ k, mapGet (addSub "333" (remSub "333" emptyState "s") "s"
          [emptyFilter]).subs k =
        mapGet (addSub "333" emptyState "s" [emptyFilter]).subs k) :=
  C8_registry_keys emptyState "111" "222" "333" "s" [emptyFilter] [wFilter] []
    [emptyFilter] (by decide)

/-! ## Claim C9 -/

/-- Claim C9: on an unparsable message, or an EVENT / REQ / CLOSE frame
with the wrong number of elements, the session replies with a single
NOTICE frame to the sender, initiates no close, and leaves the event store
and subscription registry unchanged. -/
theorem C9_malformed_notice (vf : SignedEvent → Bool) (self : String)
    (clients : List String) (s : RelayState) (raw : String) (m : Option JVal)
    (hm : MalformedInbound m) :
    (handler vf self clients s m raw).1 = s ∧
    (∃ fr, isNotice fr = true ∧
      (handler vf self clients s m raw).2 = [Act.send self fr]) ∧
    ∀ sid, Act.closeConn sid ∉ (handler vf self clients s m raw).2 := by
  rcases hm with rfl | ⟨rest, rfl, hr⟩ | ⟨rest, rfl, hr⟩ | ⟨rest, rfl, hr⟩
  · refine ⟨rfl, ⟨Frame.notice3 "" "Unable to parse message", rfl, rfl⟩, ?_⟩
    intro sid hmem
    simp [handler] at hmem
  · have hb : (rest.length != 1) = true := by simpa [bne_iff_ne] using hr
    have h1 : handler vf self clients s
        (some (JVal.jarr (JVal.jstr "EVENT" :: rest))) raw =
        (s, [Act.send self (Frame.notice2 "invalid: EVENT message missing params")]) := by
      simp [handler, hb]
    refine ⟨by rw [h1], ⟨Frame.notice2 "invalid: EVENT message missing params",
      rfl, by rw [h1]⟩, ?_⟩
    intro sid hmem
    rw [h1] at hmem
    simp at hmem
  · subst hr
    refine ⟨rfl, ⟨Frame.notice2 "invalid: REQ message missing params", rfl, rfl⟩, ?_⟩
    intro sid hmem
    simp [handler] at hmem
  · have hb : (rest.length != 1) = true := by simpa [bne_iff_ne] using hr
    have h1 : handler vf self clients s
        (some (JVal.jarr (JVal.jstr "CLOSE" :: rest))) raw =
        (s, [Act.send self (Frame.notice2 "invalid: CLOSE message missing params")]) := by
      simp [handler, hb]
    refine ⟨by rw [h1], ⟨Frame.notice2 "invalid: CLOSE message missing params",
      rfl, by rw [h1]⟩, ?_⟩
    intro sid hmem
    rw [h1] at hmem
    simp at hmem

/-- Witness for C9 at the unparsable-message input. -/
theorem C9_malformed_notice_witness :
    (handler (fun _ => true) "aaa" ["aaa"] oneEventState none "not json").1 =
      oneEventState ∧
    (∃ fr, isNotice fr = true ∧
      (handler (fun _ => true) "aaa" ["aaa"] oneEventState none "not json").2 =
        [Act.send "aaa" fr]) ∧
    ∀ sid, Act.closeConn sid ∉
      (handler (fun _ => true) "aaa" ["aaa"] oneEventState none "not json").2 :=
  C9_malformed_notice (fun _ => true) "aaa" ["aaa"] oneEventState "not json" none
    (Or.inl rfl)

/-! ## Claim C10 -/

theorem match_filter_ext (e : SignedEvent) (f1 f2 : EventFilter)
    (hids : f1.ids = f2.ids) (hau : f1.authors = f2.authors)
    (hki : f1.kinds = f2.kinds) (hs : f1.since = f2.since)
    (hu : f1.until_ = f2.until_) (htf : tag_filters f1 = tag_filters f2) :
    match_filter e f1 = match_filter e f2 := by
  unfold match_filter
  rw [hids, hau, hki, hs, hu, htf]

theorem filter_overwrite_nonhash (k : String) (ts : List String)
    (m : List (String × List String)) (h : startsWithHash k = false) :
    (mapOverwrite k ts m).filter (fun kv => startsWithHash kv.1) =
      m.filter (fun kv => startsWithHash kv.1) := by
  induction m with
  | nil => rfl
  | cons p rest ih =>
    by_cases hp : (p.1 == k) = true
    · have hpk : p.1 = k := by simpa using hp
      simp only [mapOverwrite, if_pos hp, List.filter_cons]
      rw [if_neg (by rw [h]; exact Bool.false_ne_true),
        if_neg (by rw [hpk, h]; exact Bool.false_ne_true)]
      exact ih
    · simp only [mapOverwrite, if_neg hp, List.filter_cons]
      by_cases hs : startsWithHash p.1 = true
      · rw [if_pos hs, if_pos hs, ih]
      · rw [if_neg hs, if_neg hs]
        exact ih

theorem tag_filters_extend_fresh (f : EventFilter) (k : String)
    (ts : List String) (hfresh : mapHasKey f.rest k = false) :
    tag_filters (extendFilter f k ts) =
      tag_filters f ++
        (if startsWithHash k then [((k.drop 1).take 1) :: ts] else []) := by
  unfold tag_filters extendFilter mapSet
  rw [if_neg (by rw [hfresh]; exact Bool.false_ne_true)]
  rw [List.filter_append, List.map_append]
  congr 1
  by_cases h : startsWithHash k = true
  · rw [if_pos h]
    simp [List.filter_cons, h]
  · rw [if_neg h]
    have hf : startsWithHash k = false := by rwa [Bool.not_eq_true] at h
    simp [List.filter_cons, hf]

theorem tag_filters_extend_nonhash (f : EventFilter) (k : String)
    (ts : List String) (h : startsWithHash k = false) :
    tag_filters (extendFilter f k ts) = tag_filters f := by
  unfold extendFilter mapSet
  by_cases hk : mapHasKey f.rest k = true
  · rw [if_pos hk]
    have h1 : tag_filters { f with rest := mapOverwrite k ts f.rest } =
        ((mapOverwrite k ts f.rest).filter (fun kv => startsWithHash kv.1)).map
          (fun kv => ((kv.1.drop 1).take 1) :: kv.2) := rfl
    rw [h1, filter_overwrite_nonhash k ts f.rest h]
    rfl
  · rw [if_neg hk]
    have h1 : tag_filters { f with rest := f.rest ++ [(k, ts)] } =
        ((f.rest ++ [(k, ts)]).filter (fun kv => startsWithHash kv.1)).map
          (fun kv => ((kv.1.drop 1).take 1) :: kv.2) := rfl
    rw [h1, List.filter_append]
    have h2 : ([(k, ts)].filter (fun kv => startsWithHash kv.1)) = [] := by
      simp [List.filter_cons, h]
    rw [h2, List.append_nil]
    rfl

/-- Counterexample to C10 as frozen: JS object extension overwrites an
already-present key, so over the base filter `wFilter` (which binds
`"#p" -> ["x"]`), extending with the fresh key `"#pq" -> ["y"]` keeps both
bindings (conjoining the `x`- and `y`-constraints) while extending with
`"#p" -> ["y"]` replaces the old one; the event with lone tag `["p","y"]`
is matched by the second filter but not the first, refuting the claim's
universal equality. -/
theorem C10_counterexample :
    match_filter cxEvent (extendFilter wFilter ("#" ++ "pq") ["y"]) = false ∧
    match_filter cxEvent (extendFilter wFilter ("#" ++ "pq".take 1) ["y"]) = true ∧
    ¬ (match_filter cxEvent (extendFilter wFilter ("#" ++ "pq") ["y"]) =
        match_filter cxEvent (extendFilter wFilter ("#" ++ "pq".take 1) ["y"])) ∧
    ("pq" : String) ≠ "" := by
  exact ⟨by decide, by decide, by decide, by decide⟩

/-- C10 amended: only filter keys beginning with `#` impose tag
constraints, and only the first character after `#` is used as the tag
name — **provided** neither `"#" ++ k` nor `"#" ++ k.take 1` is already a
key of the base filter (object extension overwrites an existing binding,
so extending at an already-bound key replaces its terms instead of adding
a constraint, and the two sides of the equality then overwrite different
keys).  Extra keys that do not begin with `#` impose no constraint at all,
whether fresh or overwriting an existing non-`#` key. -/
theorem C10_tag_key_truncation (e : SignedEvent) (f : EventFilter)
    (k : String) (ts : List String) (k2 : String) (ts2 : List String)
    (hk : k ≠ "") (h2 : startsWithHash k2 = false)
    (hf1 : mapHasKey f.rest ("#" ++ k) = false)
    (hf2 : mapHasKey f.rest ("#" ++ k.take 1) = false) :
    (match_filter e (extendFilter f ("#" ++ k) ts) =
      match_filter e (extendFilter f ("#" ++ k.take 1) ts)) ∧
    match_filter e (extendFilter f k2 ts2) = match_filter e f := by
  have _hk := hk
  constructor
  · apply match_filter_ext <;> try rfl
    rw [tag_filters_extend_fresh f _ ts hf1, tag_filters_extend_fresh f _ ts hf2]
    have hsw1 : startsWithHash ("#" ++ k) = true := by
      simp [startsWithHash, String.data_append]
    have hsw2 : startsWithHash ("#" ++ k.take 1) = true := by
      simp [startsWithHash, String.data_append]
    rw [if_pos hsw1, if_pos hsw2]
    have hslice : (("#" ++ k).drop 1).take 1 = (("#" ++ k.take 1).drop 1).take 1 := by
      apply String.ext
      simp only [String.data_take, String.data_drop, String.data_append]
      have hd : ∀ l : List Char, List.drop 1 (['#'] ++ l) = l := fun l => rfl
      rw [hd, hd, List.take_take]
      simp
    rw [hslice]
  · apply match_filter_ext <;> try rfl
    exact tag_filters_extend_nonhash f k2 ts2 h2

/-- Witness for C10's amended theorem: key `#qr` (truncated to `#q`), both
fresh over `wFilter`, and inert key `foo`. -/
theorem C10_tag_key_truncation_witness :
    (match_filter wEvent (extendFilter wFilter ("#" ++ "qr") ["x"]) =
      match_filter wEvent (extendFilter wFilter ("#" ++ "qr".take 1) ["x"])) ∧
    match_filter wEvent (extendFilter wFilter "foo" ["y"]) =
      match_filter wEvent wFilter :=
  C10_tag_key_truncation wEvent wFilter "qr" ["x"] "foo" ["y"] (by decide)
    (by decide) (by decide) (by decide)

end NostrEmbed
